import Mathlib

/-!
Verification development for the DendroHeat layout engine
(`src/DendroHeat.py`).

The Python source is shallowly embedded here:

* a pandas `DataFrame` holding the raw data becomes `Table`
  (ordered column labels plus ordered rows of `(label, values)`);
* numeric cell values are rationals (`ℚ`); the NaN produced by the
  pandas column normalisation `(df - df.min()) / (df.max() - df.min())`
  on a constant column (a `0/0`) is modelled by `Option ℚ` with `none`
  standing for NaN;
* `df.loc[m].tolist()` (line 71) is fallible: on a duplicated index
  label `df.loc[m]` is a DataFrame and `.tolist()` raises
  `AttributeError`, so the loop of `_createHeatmap` produces its lists
  only for tables whose row labels are pairwise distinct — `locRow`
  returns an `Option`, and `buildData` is `none` exactly when that
  error fires;
* the flat per-cell lists built by `DendroHeat._createHeatmap`
  (`name`, `attribute`, `colors`, `xs`, `ys`, `value`, `alpha`) become
  the fields of `HeatmapData`; the `ColumnDataSource` pairs entries of
  the seven lists by their common flat index;
* the mutable instance state (`self.heatmap`, `self.linkage`,
  `self.icoord`, `self.dcoord`, `self.data`) becomes `DendroState`;
  the coordinate fields distinguish the never-assigned initial `''`
  (on which `pd.DataFrame('')` raises `ValueError`, line 106) from
  assigned coordinate arrays; Python exceptions become
  `Except String`.
-/

/-- Python's `max` over a list of numbers.  `max([])` raises in Python;
the `[]` case returns `0` and is only ever exercised where a theorem's
hypotheses rule it out. -/
def listMax : List ℚ → ℚ
  | [] => 0
  | x :: xs => xs.foldl max x

/-- Python's `min` over a list of numbers, with the same `[]` caveat as
`listMax`. -/
def listMin : List ℚ → ℚ
  | [] => 0
  | x :: xs => xs.foldl min x

/-- A pandas DataFrame as used by `DendroHeat`: ordered column labels
and ordered rows, each row an index label together with its values
(one per column in a rectangular table).  Index labels need not be
distinct — pandas allows duplicate labels, and `df.loc` then behaves
differently (see `locRow`). -/
structure Table where
  colLabels : List String
  rows : List (String × List ℚ)
deriving DecidableEq

/-- The values of column `j` (as read by `df.min(axis=0)` /
`df.max(axis=0)`): one entry per row. -/
def colValues (t : Table) (j : ℕ) : List ℚ :=
  t.rows.map (fun r => r.2.getD j 0)

/-- `df.min(axis=0)` for column `j`. -/
def colMin (t : Table) (j : ℕ) : ℚ := listMin (colValues t j)

/-- `df.max(axis=0)` for column `j`. -/
def colMax (t : Table) (j : ℕ) : ℚ := listMax (colValues t j)

/-- One cell of `ndf = (df - df.min(axis=0)) / (df.max(axis=0) - df.min(axis=0))`
(line 54 of the source).  When `mx = mn` pandas divides `0` by `0` and
yields NaN, modelled as `none`. -/
def normCell (mn mx v : ℚ) : Option ℚ :=
  if mx = mn then none else some ((v - mn) / (mx - mn))

/-- A normalised row, the entry for column `j + k` being
`normCell (colMin (j+k)) (colMax (j+k))` of the raw entry.  `j` is the
index of the first column of `vs`. -/
def normRow (t : Table) : ℕ → List ℚ → List (Option ℚ)
  | _, [] => []
  | j, v :: vs => normCell (colMin t j) (colMax t j) v :: normRow t (j + 1) vs

/-- `df.loc[m].tolist()` (line 71).  `df.loc[m]` selects by index
label: with exactly one matching row it is a Series and `.tolist()`
returns that row's values; with a duplicated label it is a DataFrame,
which has no `.tolist()`, so the call raises `AttributeError` (with no
matching row `.loc` raises `KeyError`).  Both error outcomes are
modelled as `none`. -/
def locRow (t : Table) (m : String) : Option (List ℚ) :=
  match t.rows.filter (fun r => r.1 == m) with
  | [r] => some r.2
  | _ => none

/-- The `df.loc[m].tolist()` calls of the `_createHeatmap` loop, one
per row in order; `none` as soon as one of them raises. -/
def locRows (t : Table) : List (String × List ℚ) → Option (List (List ℚ))
  | [] => some []
  | r :: rs =>
    match locRow t r.1, locRows t rs with
    | some v, some vs => some (v :: vs)
    | _, _ => none

/-- The fixed palette `crange` of line 58 of the source: exactly ten
colour strings. -/
def crange : List String :=
  ["#66ff66", "#00ffff", "#000099", "#6600ff", "#ff00ff",
   "#990099", "#ff0066", "#993333", "#ff9933", "#ffff00"]

/-- The dict `self.data` built by the loop of `_createHeatmap`
(lines 65-74).  `attribute` is a Lean keyword, hence the field name
`attrib`. -/
structure HeatmapData where
  name : List String
  attrib : List String
  colors : List String
  xs : List ℚ
  ys : List ℚ
  value : List ℚ
  alpha : List (Option ℚ)
deriving DecidableEq

/-- The dict assembled by a *completed* run of the loop of
`_createHeatmap` (lines 65-74), with `vrows` the list of
`df.loc[m].tolist()` results, one per row in order.  Per iteration
(loop counter `i`, index label `m`) the loop appends:

* `name    += [m] * len(df.columns)`
* `attribute += df.columns.tolist()`
* `colors  += crange * 2`           (20 entries per row, whatever the
                                     column count)
* `xs      += np.arange(0.5, len(df.columns) + 0.5)`
* `ys      += [i + 0.5] * len(df.columns)`
* `value   += df.loc[m].tolist()`
* `alpha   += ndf.loc[m].tolist()`   (the same row of the normalised
                                      frame)

Each iteration is independent, so each list is a `flatMap` over the
rows (`ys` over the row counter, `value`/`alpha` over `vrows`). -/
def buildDataOf (t : Table) (vrows : List (List ℚ)) : HeatmapData :=
  let n := t.colLabels.length
  { name := t.rows.flatMap (fun r => List.replicate n r.1)
    attrib := t.rows.flatMap (fun _ => t.colLabels)
    colors := t.rows.flatMap (fun _ => crange ++ crange)
    xs := t.rows.flatMap
      (fun _ => (List.range n).map (fun j : ℕ => (j : ℚ) + 1/2))
    ys := (List.range t.rows.length).flatMap
      (fun i => List.replicate n ((i : ℚ) + 1/2))
    value := vrows.flatten
    alpha := (vrows.map (normRow t 0)).flatten }

/-- The loop of `_createHeatmap`: it completes — producing the data
dict — exactly when every `df.loc[m].tolist()` call succeeds, i.e.
when no index label is duplicated; otherwise the `AttributeError` of
line 71 aborts it and nothing is produced. -/
def buildData (t : Table) : Option HeatmapData :=
  match locRows t t.rows with
  | some vrows => some (buildDataOf t vrows)
  | none => none

/-- What the field `self.heatmap` can hold over the object's lifetime:
the initial empty string `''`, a raw-data table, or — after
`_createHeatmap` line 97 overwrites it — the Bokeh figure, modelled by
the cell data it renders plus the line segments added to it. -/
inductive HeatSlot where
  | emptyStr : HeatSlot
  | table : Table → HeatSlot
  | fig : HeatmapData → List (List ℚ × List ℚ) → HeatSlot
deriving DecidableEq

/-- What `self.linkage` can hold: the initial `''` or the linkage
DataFrame. -/
inductive LinkSlot where
  | emptyStr : LinkSlot
  | mat : Table → LinkSlot
deriving DecidableEq

/-- What `self.icoord` / `self.dcoord` can hold: the initial `''`, or
coordinate arrays (assigned by `addData`, later overwritten with their
rescaled versions by `_createDendrogram`).  The distinction matters:
`pd.DataFrame('')` on the never-assigned `''` raises `ValueError`
(line 106). -/
inductive CoordSlot where
  | emptyStr : CoordSlot
  | arrs : List (List ℚ) → CoordSlot
deriving DecidableEq

/-- The mutable instance state of a `DendroHeat` object.  `data` is
`none` before `_createHeatmap` first assigns `self.data` (reading it
earlier is an `AttributeError`). -/
structure DendroState where
  heatmap : HeatSlot
  linkage : LinkSlot
  icoord : CoordSlot
  dcoord : CoordSlot
  data : Option HeatmapData
deriving DecidableEq

/-- `DendroHeat.__init__`: every field starts as `''`, and `self.data`
does not exist yet. -/
def initState : DendroState :=
  { heatmap := .emptyStr, linkage := .emptyStr,
    icoord := .emptyStr, dcoord := .emptyStr, data := none }

/-- The dict returned by the external
`scipy.cluster.hierarchy.dendrogram` call (an out-of-scope
collaborator): the branch coordinate arrays and the leaf order used to
reorder the table's rows. -/
structure ClusterResult where
  icoord : List (List ℚ)
  dcoord : List (List ℚ)
  ivl : List ℕ
deriving DecidableEq

/-- `df.iloc[order]` for a list of positional indices (line 47 of the
source): pandas raises `IndexError` when some index is out of bounds,
and otherwise selects the rows positionally — duplicate or missing
indices are not rejected. -/
def ilocTable (t : Table) (ord : List ℕ) : Except String Table :=
  if ord.all (fun i => i < t.rows.length) then
    .ok { colLabels := t.colLabels,
          rows := ord.map (fun i => t.rows.getD i ("", [])) }
  else .error "IndexError: positional indexers are out-of-bounds"

/-- `DendroHeat.addData` (lines 30-47).  File parsing and the
`dendrogram` call are external collaborators, so the parsed DataFrame
`df` and the dendrogram result `cl` are passed in.  The checks happen
in source order: empty file name, empty `type`, then the `raw` and
`linkage` branches; any other `type` string falls through leaving the
state untouched.  (In Python an `IndexError` from `iloc` would
propagate after `self.linkage`, `self.icoord`, `self.dcoord` were
already assigned; the `Except` model only surfaces the error.) -/
def addData (s : DendroState) (fname : String) (df : Table)
    (cl : ClusterResult) (ty : String) : Except String DendroState :=
  if fname = "" then
    .error "FileNotFoundError: file does not exist"
  else if ty = "" then
    .error "AssertionError: Please designate datatype - raw or linkage"
  else
    let s1 := if ty = "raw" then { s with heatmap := .table df } else s
    if ty = "linkage" then
      let s2 := { s1 with linkage := .mat df,
                          icoord := .arrs cl.icoord,
                          dcoord := .arrs cl.dcoord }
      match s2.heatmap with
      | .table t =>
          (ilocTable t cl.ivl).map (fun t2 => { s2 with heatmap := .table t2 })
      | _ => .error "AttributeError: object has no attribute iloc"
    else .ok s1

/-- `DendroHeat._createHeatmap` (lines 49-97).  The guard
`if self.heatmap is None` on line 51 can never fire: the field is
initialised to `''` and only ever reassigned a DataFrame or a figure,
none of which is `None`.  When the field holds something other than a
DataFrame the arithmetic of line 54 raises a `TypeError`.  When the
table has a duplicated index label, `df.loc[m].tolist()` on line 71
raises `AttributeError` and nothing is produced.  Otherwise the method
stores the cell dict in `self.data` and **overwrites** `self.heatmap`
with the freshly created figure (line 97), which starts with no line
renderers. -/
def createHeatmapState (s : DendroState) : Except String DendroState :=
  match s.heatmap with
  | .table t =>
      match buildData t with
      | some d => .ok { s with data := some d, heatmap := .fig d [] }
      | none =>
          .error "AttributeError: DataFrame object has no attribute tolist"
  | _ => .error "TypeError: unsupported operand type"

/-- Multiply every entry of every coordinate array by the factor `c`
(lines 108-109: `self.icoord * (... / ...)`). -/
def scaleCoords (ls : List (List ℚ)) (c : ℚ) : List (List ℚ) :=
  ls.map (List.map (fun v => v * c))

/-- `self.icoord.max().max()`: the maximum over all entries of all
coordinate arrays. -/
def globalMax (ls : List (List ℚ)) : ℚ := listMax ls.flatten

/-- The negation `d = list(map(lambda x: -x, d))` of line 114, applied
to every depth array. -/
def negCoords (ls : List (List ℚ)) : List (List ℚ) :=
  ls.map (List.map (fun v => -v))

/-- `DendroHeat._createDendrogram` (lines 99-115).  The guard
`if self.linkage is None` on line 104 can never fire (the field holds
`''` or a DataFrame, never `None`).  In source order: lines 106-107
rebuild `self.icoord`/`self.dcoord` as DataFrames — raising
`ValueError` when a field still holds its initial `''` — then line 108
reads `self.data` (an `AttributeError` before `_createHeatmap` ran)
and takes Python's `max` of `ys`/`xs` (a `ValueError` on an empty
sequence).  Past those, the stored arrays are **overwritten** by their
rescaled versions — with no check that `globalMax` is nonzero: in the
degenerate case numpy turns the division into `inf` (rational division
by zero is total here) and output is still produced — and one line per
branch, negated depths as `x` and positions as `y`, is added to the
figure. -/
def createDendrogramState (s : DendroState) : Except String DendroState :=
  match s.icoord with
  | .emptyStr => .error "ValueError: DataFrame constructor not properly called"
  | .arrs ic0 =>
    match s.dcoord with
    | .emptyStr =>
        .error "ValueError: DataFrame constructor not properly called"
    | .arrs dc0 =>
      match s.data with
      | none => .error "AttributeError: object has no attribute data"
      | some d =>
          if d.ys = [] then .error "ValueError: max arg is an empty sequence"
          else if d.xs = [] then
            .error "ValueError: max arg is an empty sequence"
          else
            let ic := scaleCoords ic0 (listMax d.ys / globalMax ic0)
            let dc := scaleCoords dc0 (listMax d.xs / globalMax dc0)
            match s.heatmap with
            | .fig hd segs =>
                .ok { s with
                      icoord := .arrs ic
                      dcoord := .arrs dc
                      heatmap := .fig hd (segs ++ List.zip (negCoords dc) ic) }
            | _ => .error "AttributeError: object has no attribute line"

/-! ### Basic facts about `listMax` and `listMin` -/

lemma le_foldl_max (xs : List ℚ) (a : ℚ) : a ≤ xs.foldl max a := by
  induction xs generalizing a with
  | nil => exact le_rfl
  | cons x xs ih => exact le_trans (le_max_left a x) (ih (max a x))

lemma foldl_max_le_of_mem {xs : List ℚ} {b : ℚ} (hb : b ∈ xs) (a : ℚ) :
    b ≤ xs.foldl max a := by
  induction xs generalizing a with
  | nil => cases hb
  | cons x xs ih =>
    rcases List.mem_cons.mp hb with h | h
    · subst h
      exact le_trans (le_max_right a b) (le_foldl_max xs (max a b))
    · exact ih h (max a x)

lemma foldl_max_mem (xs : List ℚ) (a : ℚ) :
    xs.foldl max a = a ∨ xs.foldl max a ∈ xs := by
  induction xs generalizing a with
  | nil => exact .inl rfl
  | cons x xs ih =>
    rcases ih (max a x) with h | h
    · rcases max_choice a x with hm | hm
      · exact .inl (by rw [List.foldl_cons, h, hm])
      · exact .inr (by rw [List.foldl_cons, h, hm]; exact List.mem_cons_self x xs)
    · exact .inr (List.mem_cons_of_mem x h)

lemma listMax_mem {l : List ℚ} (h : l ≠ []) : listMax l ∈ l := by
  cases l with
  | nil => exact absurd rfl h
  | cons x xs =>
    rcases foldl_max_mem xs x with h' | h'
    · rw [listMax, h']; exact List.mem_cons_self x xs
    · exact List.mem_cons_of_mem x h'

lemma le_listMax {l : List ℚ} {b : ℚ} (hb : b ∈ l) : b ≤ listMax l := by
  cases l with
  | nil => cases hb
  | cons x xs =>
    rcases List.mem_cons.mp hb with h | h
    · subst h; exact le_foldl_max xs b
    · exact foldl_max_le_of_mem h x

lemma listMax_eq_of {l : List ℚ} {M : ℚ} (hM : M ∈ l) (hub : ∀ x ∈ l, x ≤ M) :
    listMax l = M :=
  le_antisymm (hub _ (listMax_mem (List.ne_nil_of_mem hM))) (le_listMax hM)

lemma foldl_min_le (xs : List ℚ) (a : ℚ) : xs.foldl min a ≤ a := by
  induction xs generalizing a with
  | nil => exact le_rfl
  | cons x xs ih => exact le_trans (ih (min a x)) (min_le_left a x)

lemma foldl_min_le_of_mem {xs : List ℚ} {b : ℚ} (hb : b ∈ xs) (a : ℚ) :
    xs.foldl min a ≤ b := by
  induction xs generalizing a with
  | nil => cases hb
  | cons x xs ih =>
    rcases List.mem_cons.mp hb with h | h
    · subst h
      exact le_trans (foldl_min_le xs (min a b)) (min_le_right a b)
    · exact ih h (min a x)

lemma listMin_le {l : List ℚ} {b : ℚ} (hb : b ∈ l) : listMin l ≤ b := by
  cases l with
  | nil => cases hb
  | cons x xs =>
    rcases List.mem_cons.mp hb with h | h
    · subst h; exact foldl_min_le xs b
    · exact foldl_min_le_of_mem h x

/-! ### Indexing a `flatMap` of constant-length chunks -/

lemma flatMap_length_const {α β : Type} (l : List α) (f : α → List β) (n : ℕ)
    (h : ∀ a ∈ l, (f a).length = n) : (l.flatMap f).length = l.length * n := by
  induction l with
  | nil => simp
  | cons x xs ih =>
    rw [List.flatMap_cons, List.length_append, h x (List.mem_cons_self x xs),
      ih (fun a ha => h a (List.mem_cons_of_mem x ha)), List.length_cons]
    ring

lemma flatMap_getElem? {α β : Type} (l : List α) (f : α → List β) (n : ℕ)
    (h : ∀ a ∈ l, (f a).length = n) (i j : ℕ) (a : α)
    (ha : l[i]? = some a) (hj : j < n) :
    (l.flatMap f)[i * n + j]? = (f a)[j]? := by
  induction l generalizing i with
  | nil => simp at ha
  | cons x xs ih =>
    cases i with
    | zero =>
      rw [List.getElem?_cons_zero, Option.some_inj] at ha
      subst ha
      rw [List.flatMap_cons, Nat.zero_mul, Nat.zero_add,
        List.getElem?_append_left (by
          rw [h x (List.mem_cons_self x xs)]; exact hj)]
    | succ i =>
      rw [List.getElem?_cons_succ] at ha
      rw [List.flatMap_cons,
        List.getElem?_append_right (by
          rw [h x (List.mem_cons_self x xs)]; nlinarith [Nat.succ_mul i n]),
        h x (List.mem_cons_self x xs)]
      have harith : (i + 1) * n + j - n = i * n + j := by
        rw [Nat.succ_mul]; omega
      rw [harith]
      exact ih (fun a ha => h a (List.mem_cons_of_mem x ha)) i ha

/-! ### `locRow`, `locRows` and `buildData` -/

/-- With pairwise-distinct labels, the rows matching a present label
are exactly the one row carrying it. -/
lemma filter_label_eq_single (rows : List (String × List ℚ))
    (hlab : (rows.map Prod.fst).Nodup) (r : String × List ℚ) (hr : r ∈ rows) :
    rows.filter (fun x => x.1 == r.1) = [r] := by
  induction rows with
  | nil => cases hr
  | cons a tl ih =>
    rw [List.map_cons, List.nodup_cons] at hlab
    by_cases hpa : a.1 = r.1
    · have hra : r = a := by
        rcases List.mem_cons.mp hr with h | h
        · exact h
        · have hmem : r.1 ∈ tl.map Prod.fst := List.mem_map_of_mem Prod.fst h
          rw [← hpa] at hmem
          exact absurd hmem hlab.1
      subst hra
      have hnil : tl.filter (fun x => x.1 == r.1) = [] := by
        rw [List.filter_eq_nil_iff]
        intro b hb hbeq
        have : b.1 = r.1 := by simpa using hbeq
        exact hlab.1 (this ▸ List.mem_map_of_mem Prod.fst hb)
      rw [List.filter_cons_of_pos (by simp), hnil]
    · have hrtl : r ∈ tl := by
        rcases List.mem_cons.mp hr with h | h
        · exact absurd (by rw [h]) hpa
        · exact h
      rw [List.filter_cons_of_neg (by simpa using hpa)]
      exact ih hlab.2 hrtl

/-- With pairwise-distinct labels, `df.loc` on a row's own label
succeeds and returns that row's values. -/
lemma locRow_unique (t : Table) (hlab : (t.rows.map Prod.fst).Nodup)
    (r : String × List ℚ) (hr : r ∈ t.rows) : locRow t r.1 = some r.2 := by
  unfold locRow
  rw [filter_label_eq_single t.rows hlab r hr]

lemma locRows_eq_map (t : Table) (rs : List (String × List ℚ))
    (h : ∀ r ∈ rs, locRow t r.1 = some r.2) :
    locRows t rs = some (rs.map Prod.snd) := by
  induction rs with
  | nil => rfl
  | cons r rs ih =>
    simp only [locRows]
    rw [h r (List.mem_cons_self r rs),
      ih (fun a ha => h a (List.mem_cons_of_mem r ha)), List.map_cons]

lemma locRows_none (t : Table) (rs : List (String × List ℚ))
    (r : String × List ℚ) (hr : r ∈ rs) (h : locRow t r.1 = none) :
    locRows t rs = none := by
  induction rs with
  | nil => cases hr
  | cons a tl ih =>
    simp only [locRows]
    rcases List.mem_cons.mp hr with hra | hrtl
    · subst hra
      rw [h]
    · rw [ih hrtl]
      cases locRow t a.1 <;> rfl

/-- On a table with pairwise-distinct row labels the loop completes
and produces the data dict built from the rows' own value lists. -/
lemma buildData_nodup (t : Table) (hlab : (t.rows.map Prod.fst).Nodup) :
    buildData t = some (buildDataOf t (t.rows.map Prod.snd)) := by
  unfold buildData
  rw [locRows_eq_map t t.rows (fun r hr => locRow_unique t hlab r hr)]

/-- A duplicated label gives some label at least two matching rows. -/
lemma dup_filter_two (rows : List (String × List ℚ))
    (hdup : ¬ (rows.map Prod.fst).Nodup) :
    ∃ m, 2 ≤ (rows.filter (fun x => x.1 == m)).length := by
  induction rows with
  | nil => simp at hdup
  | cons a tl ih =>
    rw [List.map_cons, List.nodup_cons] at hdup
    by_cases ha : a.1 ∈ tl.map Prod.fst
    · refine ⟨a.1, ?_⟩
      obtain ⟨b, hb, hbl⟩ := List.mem_map.mp ha
      have hbf : b ∈ tl.filter (fun x => x.1 == a.1) :=
        List.mem_filter.mpr ⟨hb, by simpa using hbl⟩
      have h1 : 1 ≤ (tl.filter (fun x => x.1 == a.1)).length :=
        List.length_pos_of_mem hbf
      rw [List.filter_cons_of_pos (by simp), List.length_cons]
      omega
    · have htl : ¬ (tl.map Prod.fst).Nodup := by
        intro hnd
        exact hdup ⟨ha, hnd⟩
      obtain ⟨m, hm⟩ := ih htl
      refine ⟨m, ?_⟩
      rw [List.filter_cons]
      by_cases hq : (a.1 == m) = true
      · rw [if_pos hq, List.length_cons]; omega
      · rw [if_neg hq]; exact hm

/-- With a label matched by at least two rows, `df.loc[m].tolist()`
raises. -/
lemma locRow_two_none (t : Table) (m : String)
    (h : 2 ≤ (t.rows.filter (fun x => x.1 == m)).length) :
    locRow t m = none := by
  unfold locRow
  match hf : t.rows.filter (fun x => x.1 == m) with
  | [] => rw [hf] at h; simp at h
  | [x] => rw [hf] at h; simp at h
  | x :: y :: rest => rw [hf]

/-- On a table with a duplicated row label the loop of
`_createHeatmap` aborts with `AttributeError` and produces nothing. -/
lemma buildData_none_of_dup (t : Table)
    (hdup : ¬ (t.rows.map Prod.fst).Nodup) : buildData t = none := by
  obtain ⟨m, hm⟩ := dup_filter_two t.rows hdup
  have hmem : ∃ r ∈ t.rows, r.1 = m := by
    have hne : t.rows.filter (fun x => x.1 == m) ≠ [] := by
      intro hq
      rw [hq] at hm
      simp at hm
    obtain ⟨x, hx⟩ := List.exists_mem_of_ne_nil _ hne
    obtain ⟨hx1, hx2⟩ := List.mem_filter.mp hx
    exact ⟨x, hx1, by simpa using hx2⟩
  obtain ⟨r, hr, hrl⟩ := hmem
  unfold buildData
  rw [locRows_none t t.rows r hr (by rw [hrl]; exact locRow_two_none t m hm)]

/-- Unpacking a successful build: the dict came from some list of
`df.loc` results. -/
lemma buildData_some_eq (t : Table) (d : HeatmapData)
    (hd : buildData t = some d) :
    ∃ v, locRows t t.rows = some v ∧ d = buildDataOf t v := by
  unfold buildData at hd
  cases h : locRows t t.rows with
  | none => rw [h] at hd; exact Option.noConfusion hd
  | some v => rw [h] at hd; exact ⟨v, rfl, (Option.some_inj.mp hd).symm⟩

/-- Every successful build's `ys` list is the list of row centres. -/
lemma buildData_ys (t : Table) (d : HeatmapData) (hd : buildData t = some d) :
    d.ys = (List.range t.rows.length).flatMap
      (fun i => List.replicate t.colLabels.length ((i : ℚ) + 1/2)) := by
  obtain ⟨v, -, rfl⟩ := buildData_some_eq t d hd
  rfl

/-- Every successful build's `xs` list is the list of column centres,
repeated per row. -/
lemma buildData_xs (t : Table) (d : HeatmapData) (hd : buildData t = some d) :
    d.xs = t.rows.flatMap
      (fun _ => (List.range t.colLabels.length).map
        (fun j : ℕ => (j : ℚ) + 1/2)) := by
  obtain ⟨v, -, rfl⟩ := buildData_some_eq t d hd
  rfl

/-- Every successful build's colour list is `crange * 2` per row. -/
lemma buildData_colors (t : Table) (d : HeatmapData)
    (hd : buildData t = some d) :
    d.colors = t.rows.flatMap (fun _ => crange ++ crange) := by
  obtain ⟨v, -, rfl⟩ := buildData_some_eq t d hd
  rfl

/-! ### `normRow` -/

lemma normRow_length (t : Table) (j : ℕ) (vs : List ℚ) :
    (normRow t j vs).length = vs.length := by
  induction vs generalizing j with
  | nil => rfl
  | cons v vs ih => simp [normRow, ih]

lemma mem_normRow (t : Table) (j : ℕ) (vs : List ℚ) (a : Option ℚ)
    (ha : a ∈ normRow t j vs) :
    ∃ k, k < vs.length ∧
      a = normCell (colMin t (j + k)) (colMax t (j + k)) (vs.getD k 0) := by
  induction vs generalizing j with
  | nil => cases ha
  | cons v vs ih =>
    rcases List.mem_cons.mp ha with h | h
    · exact ⟨0, by simp, by simpa using h⟩
    · rcases ih (j + 1) h with ⟨k, hk, hval⟩
      refine ⟨k + 1, by simpa using Nat.succ_lt_succ hk, ?_⟩
      rw [hval, List.getD_cons_succ]
      have : j + 1 + k = j + (k + 1) := by omega
      rw [this]

/-! ### Extents of the `ys` and `xs` lists -/

lemma ysListMax (R n : ℕ) (hr : 1 ≤ R) (hc : 1 ≤ n) :
    listMax ((List.range R).flatMap
      (fun i => List.replicate n ((i : ℚ) + 1/2))) = (R : ℚ) - 1/2 := by
  apply listMax_eq_of
  · have hcast : ((R - 1 : ℕ) : ℚ) + 1/2 = (R : ℚ) - 1/2 := by
      rw [Nat.cast_sub hr]; push_cast; ring
    rw [← hcast]
    simp only [List.mem_flatMap, List.mem_range]
    exact ⟨R - 1, by omega, List.mem_replicate.mpr ⟨by omega, rfl⟩⟩
  · intro x hx
    simp only [List.mem_flatMap, List.mem_range] at hx
    obtain ⟨i, hi, hx⟩ := hx
    rw [(List.mem_replicate.mp hx).2]
    have hle : ((i + 1 : ℕ) : ℚ) ≤ (R : ℚ) := by exact_mod_cast hi
    push_cast at hle
    linarith

lemma xsListMax {α : Type} (l : List α) (n : ℕ) (hl : l ≠ []) (hc : 1 ≤ n) :
    listMax (l.flatMap
      (fun _ => (List.range n).map (fun j : ℕ => (j : ℚ) + 1/2))) =
      (n : ℚ) - 1/2 := by
  obtain ⟨r, hrmem⟩ := List.exists_mem_of_ne_nil l hl
  apply listMax_eq_of
  · have hcast : ((n - 1 : ℕ) : ℚ) + 1/2 = (n : ℚ) - 1/2 := by
      rw [Nat.cast_sub hc]; push_cast; ring
    rw [← hcast]
    simp only [List.mem_flatMap]
    exact ⟨r, hrmem, List.mem_map.mpr
      ⟨n - 1, by simp [List.mem_range]; omega, rfl⟩⟩
  · intro x hx
    simp only [List.mem_flatMap] at hx
    obtain ⟨a, _, hx⟩ := hx
    obtain ⟨j, hj, hx⟩ := List.mem_map.mp hx
    rw [← hx]
    rw [List.mem_range] at hj
    have hle : ((j + 1 : ℕ) : ℚ) ≤ (n : ℚ) := by exact_mod_cast hj
    push_cast at hle
    linarith

/-! ### Scaling the coordinate arrays -/

lemma listMax_map_mul (l : List ℚ) (c : ℚ) (hc : 0 ≤ c) (hl : l ≠ []) :
    listMax (l.map (fun v => v * c)) = listMax l * c := by
  apply listMax_eq_of
  · exact List.mem_map_of_mem _ (listMax_mem hl)
  · intro x hx
    obtain ⟨v, hv, rfl⟩ := List.mem_map.mp hx
    exact mul_le_mul_of_nonneg_right (le_listMax hv) hc

lemma flatten_scaleCoords (ls : List (List ℚ)) (c : ℚ) :
    (scaleCoords ls c).flatten = ls.flatten.map (fun v => v * c) :=
  (List.map_flatten _ ls).symm

lemma globalMax_scaleCoords (ls : List (List ℚ)) (c : ℚ) (hc : 0 ≤ c)
    (hl : ls.flatten ≠ []) :
    globalMax (scaleCoords ls c) = globalMax ls * c := by
  rw [globalMax, flatten_scaleCoords, listMax_map_mul _ _ hc hl, globalMax]

/-! ### The colors list -/

lemma crange_double_getElem? : ∀ k, k < 20 →
    (crange ++ crange)[k]? = crange[k % 10]? := by decide

lemma flatMap_const_crange {α : Type} (l : List α) (k : ℕ)
    (hk : k < 20 * l.length) :
    (l.flatMap (fun _ => crange ++ crange))[k]? = crange[k % 10]? := by
  induction l generalizing k with
  | nil => simp at hk
  | cons x xs ih =>
    rw [List.flatMap_cons]
    by_cases h20 : k < 20
    · rw [List.getElem?_append_left (by
        rw [show (crange ++ crange).length = 20 from rfl]; exact h20)]
      exact crange_double_getElem? k h20
    · rw [List.getElem?_append_right (by
        rw [show (crange ++ crange).length = 20 from rfl]; omega)]
      rw [show (crange ++ crange).length = 20 from rfl]
      rw [show k % 10 = (k - 20) % 10 from by omega]
      exact ih (k - 20) (by simp [List.length_cons] at hk; omega)

/-! ### Intensity bounds -/

lemma normCell_bounds (t : Table) (j : ℕ) (v : ℚ) (hv : v ∈ colValues t j)
    (q : ℚ) (hq : normCell (colMin t j) (colMax t j) v = some q) :
    0 ≤ q ∧ q ≤ 1 := by
  rw [normCell] at hq
  by_cases hne : colMax t j = colMin t j
  · rw [if_pos hne] at hq; cases hq
  · rw [if_neg hne, Option.some_inj] at hq
    subst hq
    have h1 : colMin t j ≤ v := listMin_le hv
    have h2 : v ≤ colMax t j := le_listMax hv
    have h3 : colMin t j < colMax t j :=
      lt_of_le_of_ne (le_trans h1 h2) (fun h => hne h.symm)
    constructor
    · exact div_nonneg (by linarith) (by linarith)
    · rw [div_le_one (by linarith)]; linarith

/-! ### Reordered tables keep distinct labels -/

/-- Selecting rows of a distinct-label table at pairwise-distinct
in-range positions yields a table whose labels are again distinct. -/
lemma sel_labels_nodup (t : Table) (ord : List ℕ)
    (hlab : (t.rows.map Prod.fst).Nodup) (hnd : ord.Nodup)
    (hin : ∀ i ∈ ord, i < t.rows.length) :
    ((ord.map (fun i => t.rows.getD i ("", []))).map Prod.fst).Nodup := by
  rw [List.map_map]
  refine List.Nodup.map_on ?_ hnd
  intro a ha b hb heq
  have haa : a < t.rows.length := hin a ha
  have hbb : b < t.rows.length := hin b hb
  have hga : t.rows.getD a ("", []) = t.rows[a] := by
    rw [List.getD_eq_getElem?_getD, List.getElem?_eq_getElem haa]; rfl
  have hgb : t.rows.getD b ("", []) = t.rows[b] := by
    rw [List.getD_eq_getElem?_getD, List.getElem?_eq_getElem hbb]; rfl
  simp only [Function.comp] at heq
  rw [hga, hgb] at heq
  have hma : a < (t.rows.map Prod.fst).length := by simpa using haa
  have hmb : b < (t.rows.map Prod.fst).length := by simpa using hbb
  have hmap : (t.rows.map Prod.fst)[a] = (t.rows.map Prod.fst)[b] := by
    rw [List.getElem_map, List.getElem_map]
    exact heq
  exact (List.Nodup.getElem_inj_iff hlab).mp hmap

/-! ### Indexing a completed build -/

/-- In a completed build of a rectangular distinct-label table, the
cell record at flat index `i * columnCount + j` carries the `i`-th
row's value at column `j`, that row's label, and the vertical centre
`i + 1/2`. -/
lemma buildDataOf_indexing (t2 : Table)
    (hrect2 : ∀ r ∈ t2.rows, r.2.length = t2.colLabels.length)
    (i j : ℕ) (r : String × List ℚ)
    (hi2 : t2.rows[i]? = some r) (hj : j < t2.colLabels.length) :
    (buildDataOf t2 (t2.rows.map Prod.snd)).value[i * t2.colLabels.length + j]? =
      r.2[j]? ∧
    (buildDataOf t2 (t2.rows.map Prod.snd)).name[i * t2.colLabels.length + j]? =
      some r.1 ∧
    (buildDataOf t2 (t2.rows.map Prod.snd)).ys[i * t2.colLabels.length + j]? =
      some ((i : ℚ) + 1/2) := by
  obtain ⟨hilen, -⟩ := List.getElem?_eq_some_iff.mp hi2
  refine ⟨?_, ?_, ?_⟩
  · exact flatMap_getElem? t2.rows Prod.snd t2.colLabels.length hrect2 i j r
      hi2 hj
  · calc (buildDataOf t2 (t2.rows.map Prod.snd)).name[i * t2.colLabels.length + j]?
        = (List.replicate t2.colLabels.length r.1)[j]? :=
          flatMap_getElem? t2.rows
            (fun a => List.replicate t2.colLabels.length a.1)
            t2.colLabels.length (fun a ha => List.length_replicate _ _)
            i j r hi2 hj
      _ = some r.1 := List.getElem?_replicate_of_lt hj
  · calc (buildDataOf t2 (t2.rows.map Prod.snd)).ys[i * t2.colLabels.length + j]?
        = (List.replicate t2.colLabels.length ((i : ℚ) + 1/2))[j]? :=
          flatMap_getElem? (List.range t2.rows.length)
            (fun a => List.replicate t2.colLabels.length ((a : ℚ) + 1/2))
            t2.colLabels.length (fun a ha => List.length_replicate _ _)
            i j i (List.getElem?_range hilen) hj
      _ = some ((i : ℚ) + 1/2) := List.getElem?_replicate_of_lt hj

/-! ### Example inputs used by the claim theorems -/

/-- A table with one constant column (both rows hold the value 3). -/
def tblC2 : Table := ⟨["c"], [("A", [3]), ("B", [3])]⟩

/-- A one-row, one-column table. -/
def tblC3 : Table := ⟨["c"], [("A", [5])]⟩

/-- A two-row, one-column table. -/
def tblC4 : Table := ⟨["c"], [("A", [1]), ("B", [2])]⟩

/-! ### Claim C2 -/

/-- C2: the claim says a constant column gets a fixed neutral intensity,
never NaN.  The code divides by the zero column range instead: on the
table with one constant column the build completes and every intensity
is the pandas NaN (modelled by `none`).  This evaluates
`_createHeatmap`'s normalisation at that failing input. -/
theorem c2_constant_column_yields_nan :
    (buildData tblC2).map HeatmapData.alpha = some [none, none] := by decide

/-! ### Claim C8 -/

/-- C8 counterexample: on a table with zero rows the claim demands an
`EmptyInputError`, but `_createHeatmap` performs no emptiness check and
succeeds. -/
theorem c8_no_empty_input_error :
    (createHeatmapState { initState with heatmap := .table ⟨["c1", "c2"], []⟩ }).isOk
      = true := by decide

/-- C8 amended: `_createHeatmap` never checks the table's shape at
all — on every stored table with pairwise-distinct row labels,
with or without rows and columns, it returns successfully (its only
guard, `self.heatmap is None`, can never fire because the field is
initialised to `''`); its one failure mode is unrelated to emptiness:
a duplicated row label makes `df.loc[m].tolist()` (line 71) raise
`AttributeError`. -/
theorem c8_build_accepts_any_table (s : DendroState) (t : Table)
    (ht : s.heatmap = .table t) :
    ((t.rows.map Prod.fst).Nodup →
      createHeatmapState s =
        .ok { s with
              heatmap := .fig (buildDataOf t (t.rows.map Prod.snd)) []
              data := some (buildDataOf t (t.rows.map Prod.snd)) }) ∧
    (¬ (t.rows.map Prod.fst).Nodup →
      createHeatmapState s =
        .error "AttributeError: DataFrame object has no attribute tolist") := by
  constructor
  · intro hlab
    unfold createHeatmapState
    rw [ht]
    simp only [buildData_nodup t hlab]
  · intro hdup
    unfold createHeatmapState
    rw [ht]
    simp only [buildData_none_of_dup t hdup]

/-- C8 witness: the amended theorem at a zero-row table. -/
theorem c8_build_accepts_any_table_witness :
    createHeatmapState { initState with heatmap := .table ⟨["c1", "c2"], []⟩ } =
      .ok { initState with
            heatmap := .fig (buildDataOf ⟨["c1", "c2"], []⟩ []) []
            data := some (buildDataOf ⟨["c1", "c2"], []⟩ []) } :=
  (c8_build_accepts_any_table
    { initState with heatmap := .table ⟨["c1", "c2"], []⟩ }
    ⟨["c1", "c2"], []⟩ rfl).1 (by decide)

/-! ### Claim C10 -/

/-- A one-row table used by the C10 theorems. -/
def tblC10 : Table := ⟨["c"], [("A", [1])]⟩

/-- An empty dendrogram result used by the C10 theorems. -/
def clC10 : ClusterResult := ⟨[], [], []⟩

/-- C10 counterexample: the claim quantifies over every call with a
non-empty unrecognized type string, but a call whose `file` argument is
empty raises `FileNotFoundError` before the type is ever inspected. -/
theorem c10_empty_file_raises_first :
    addData initState "" tblC10 clC10 "other" =
      .error "FileNotFoundError: file does not exist" := rfl

/-- C10 amended: provided the file argument is non-empty, a call with a
non-empty type other than `raw` or `linkage` raises no error and
returns the state unchanged; an empty type string always raises
(`FileNotFoundError` if the file is also empty, otherwise the
`AssertionError` of line 38). -/
theorem c10_unknown_type_ignored (s : DendroState) (fname : String)
    (df : Table) (cl : ClusterResult) (ty : String) :
    (fname ≠ "" → ty ≠ "" → ty ≠ "raw" → ty ≠ "linkage" →
      addData s fname df cl ty = .ok s) ∧
    (ty = "" → ∃ e, addData s fname df cl ty = .error e) := by
  constructor
  · intro h1 h2 h3 h4
    unfold addData
    rw [if_neg h1, if_neg h2, if_neg h4, if_neg h3]
  · intro h2
    by_cases h1 : fname = ""
    · exact ⟨_, by unfold addData; rw [if_pos h1]⟩
    · exact ⟨_, by unfold addData; rw [if_neg h1, if_pos h2]⟩

/-- C10 witness: the amended theorem applied to a concrete call. -/
theorem c10_unknown_type_ignored_witness :
    addData initState "data.csv" tblC10 clC10 "other" = .ok initState :=
  (c10_unknown_type_ignored initState "data.csv" tblC10 clC10 "other").1
    (by decide) (by decide) (by decide) (by decide)

/-! ### Claim C7 -/

/-- The 2×2 table of the spec's worked example, used by the C7 theorems. -/
def tblC7 : Table := ⟨["c1", "c2"], [("A", [0, 10]), ("B", [5, 20])]⟩

/-- C7 counterexample: `[0, 0]` is not a permutation (a duplicate, and
row 1 missing), yet the reorder of line 47 succeeds, silently
producing a table with row `A` twice; no `InvalidPermutationError`
exists. -/
theorem c7_duplicate_order_accepted :
    ilocTable tblC7 [0, 0] =
      .ok ⟨["c1", "c2"], [("A", [0, 10]), ("A", [0, 10])]⟩ := rfl

/-- C7 amended: the reorder validates only that every index is in
range.  Out-of-range indices raise pandas' `IndexError` (and, the
assignment never happening, leave the stored table unchanged), while a
leafOrder of wrong length or with duplicates is accepted and selects
rows positionally. -/
theorem c7_reorder_checks_only_range (t : Table) (ord : List ℕ) :
    ((∀ i ∈ ord, i < t.rows.length) →
      ∃ t2, ilocTable t ord = .ok t2 ∧ t2.colLabels = t.colLabels ∧
        t2.rows.length = ord.length ∧
        ∀ (k ri : ℕ), ord[k]? = some ri →
          t2.rows[k]? = some (t.rows.getD ri ("", []))) ∧
    ((∃ i ∈ ord, ¬ i < t.rows.length) →
      ilocTable t ord =
        .error "IndexError: positional indexers are out-of-bounds") := by
  constructor
  · intro h
    rw [ilocTable, if_pos (by simpa using h)]
    refine ⟨_, rfl, rfl, by simp, ?_⟩
    intro k ri hk
    rw [List.getElem?_map, hk]
    rfl
  · rintro ⟨i, hi, hlt⟩
    have hcond : ¬ (ord.all (fun i => i < t.rows.length) = true) := by
      simp only [List.all_eq_true, decide_eq_true_eq]
      push_neg
      exact ⟨i, hi, Nat.le_of_not_lt hlt⟩
    rw [ilocTable, if_neg hcond]

/-- C7 witness: the amended theorem at a concrete out-of-range order
and at the spec's example permutation `[1, 0]`. -/
theorem c7_reorder_checks_only_range_witness :
    ilocTable tblC7 [2, 0] =
      .error "IndexError: positional indexers are out-of-bounds" ∧
    (ilocTable tblC7 [1, 0]).isOk = true := by
  constructor
  · exact (c7_reorder_checks_only_range tblC7 [2, 0]).2 ⟨2, by decide, by decide⟩
  · obtain ⟨t2, h1, -⟩ := (c7_reorder_checks_only_range tblC7 [1, 0]).1 (by decide)
    rw [h1]
    rfl

/-! ### Claim C4 -/

/-- C4 counterexample: on a two-row, one-column table the claim makes
both cells of column 0 the colour `palette[0 mod 10]`, but the cell at
grid row 1, column 0 — flat index `1 * 1 + 0` — is paired with the
second palette entry: the colour is not a function of the column index
alone. -/
theorem c4_color_not_column_function :
    (buildData tblC4).map
      (fun d => d.colors[1 * tblC4.colLabels.length + 0]?) ≠
      some (crange[(0 : ℕ) % 10]?) := by decide

/-- C4 amended: the colors list entry paired with flat index `k` is
`palette[k mod 10]` for `k < 20 * rows` (each loop iteration appends
`crange * 2`, twenty entries, so the ten colours repeat along the
*flat* cell sequence) — and for `k ≥ 20 * rows` there is no entry at
all, so on a table with more than 20 columns the trailing cells of the
flat sequence are paired with no colour.  The cell at row `i`,
column `j` sits at flat index `i * columnCount + j`: its colour is
`palette[(i * columnCount + j) mod 10]` when that index has a colour,
which coincides with the claimed `palette[j mod 10]` only when the
column count is a multiple of 10. -/
theorem c4_colors_cycle_by_flat_index (t : Table) (d : HeatmapData) (k : ℕ)
    (hd : buildData t = some d) :
    (k < 20 * t.rows.length → d.colors[k]? = crange[k % 10]?) ∧
    (20 * t.rows.length ≤ k → d.colors[k]? = none) := by
  rw [buildData_colors t d hd]
  constructor
  · intro hk
    exact flatMap_const_crange t.rows k hk
  · intro hk
    apply List.getElem?_eq_none
    rw [flatMap_length_const t.rows (fun _ => crange ++ crange) 20
      (fun r hr => rfl)]
    omega

/-- The completed build of `tblC4`, used by the C4 witness. -/
def dC4 : HeatmapData := buildDataOf tblC4 [[1], [2]]

/-- C4 witness: the amended theorem at flat index 11 (colour present,
palette entry 1) and at flat index 40 (beyond the 40-entry colour
list of the two-row table, no colour). -/
theorem c4_colors_cycle_by_flat_index_witness :
    buildData tblC4 = some dC4 ∧ dC4.colors[11]? = crange[11 % 10]? ∧
    dC4.colors[40]? = none :=
  ⟨rfl,
    (c4_colors_cycle_by_flat_index tblC4 dC4 11 rfl).1 (by decide),
    (c4_colors_cycle_by_flat_index tblC4 dC4 40 rfl).2 (by decide)⟩

/-! ### Claim C3 -/

/-- C3 counterexample: on the one-row, one-column table the build
completes, but the colors sequence has 20 entries, not
`rows × columns = 1`, and the single cell's intensity is the NaN
marker rather than a number in `[0, 1]` (a one-row column is
constant). -/
theorem c3_colors_length_mismatch :
    (buildData tblC3).map (fun d => d.colors.length) ≠
      some (tblC3.rows.length * tblC3.colLabels.length) ∧
    (buildData tblC3).map HeatmapData.alpha = some [none] := by decide

/-- C3 amended: for a rectangular table with at least one row and one
column *whose row labels are pairwise distinct*, build completes and
the `name`, `attribute`, `xs`, `ys`, `value` and `alpha` sequences
each have length `rows × columns`, while the colour sequence has
length `20 × rows`; every intensity that is defined (not the NaN of a
constant column) lies in `[0, 1]`.  On a duplicated row label the
build instead raises `AttributeError` (line 71) and produces
nothing. -/
theorem c3_grid_shape (t : Table) :
    ((∀ r ∈ t.rows, r.2.length = t.colLabels.length) →
      1 ≤ t.rows.length → 1 ≤ t.colLabels.length →
      (t.rows.map Prod.fst).Nodup →
      ∃ d, buildData t = some d ∧
        d.name.length = t.rows.length * t.colLabels.length ∧
        d.attrib.length = t.rows.length * t.colLabels.length ∧
        d.xs.length = t.rows.length * t.colLabels.length ∧
        d.ys.length = t.rows.length * t.colLabels.length ∧
        d.value.length = t.rows.length * t.colLabels.length ∧
        d.alpha.length = t.rows.length * t.colLabels.length ∧
        d.colors.length = 20 * t.rows.length ∧
        ∀ a ∈ d.alpha, ∀ q : ℚ, a = some q → 0 ≤ q ∧ q ≤ 1) ∧
    (¬ (t.rows.map Prod.fst).Nodup → buildData t = none) := by
  constructor
  · intro hrect hr hc hlab
    refine ⟨buildDataOf t (t.rows.map Prod.snd), buildData_nodup t hlab,
      ?_, ?_, ?_, ?_, ?_, ?_, ?_, ?_⟩
    · exact flatMap_length_const t.rows _ t.colLabels.length
        (fun r hrm => List.length_replicate _ _)
    · exact flatMap_length_const t.rows _ t.colLabels.length (fun r hrm => rfl)
    · exact flatMap_length_const t.rows _ t.colLabels.length
        (fun r hrm => by rw [List.length_map, List.length_range])
    · show ((List.range t.rows.length).flatMap
          (fun i => List.replicate t.colLabels.length ((i : ℚ) + 1/2))).length =
        t.rows.length * t.colLabels.length
      rw [flatMap_length_const (List.range t.rows.length) _ t.colLabels.length
        (fun i hi => List.length_replicate _ _), List.length_range]
    · show (t.rows.flatMap Prod.snd).length =
        t.rows.length * t.colLabels.length
      exact flatMap_length_const t.rows Prod.snd t.colLabels.length hrect
    · show ((t.rows.map Prod.snd).map (normRow t 0)).flatten.length =
        t.rows.length * t.colLabels.length
      rw [List.map_map]
      exact flatMap_length_const t.rows (fun r => normRow t 0 r.2)
        t.colLabels.length
        (fun r hrm => by rw [normRow_length]; exact hrect r hrm)
    · show (t.rows.flatMap (fun _ => crange ++ crange)).length =
        20 * t.rows.length
      rw [flatMap_length_const t.rows (fun _ => crange ++ crange) 20
        (fun r hr => rfl), Nat.mul_comm]
    · intro a ha q haq
      have ha2 : a ∈ ((t.rows.map Prod.snd).map (normRow t 0)).flatten := ha
      rw [List.map_map] at ha2
      have ha3 : a ∈ t.rows.flatMap (fun r => normRow t 0 r.2) := ha2
      obtain ⟨r, hrm, han⟩ := List.mem_flatMap.mp ha3
      obtain ⟨k, hk, hval⟩ := mem_normRow t 0 r.2 a han
      rw [Nat.zero_add] at hval
      subst haq
      refine normCell_bounds t k (r.2.getD k 0) ?_ q hval.symm
      exact List.mem_map.mpr ⟨r, hrm, rfl⟩
  · intro hdup
    exact buildData_none_of_dup t hdup

/-- C3 witness: the amended theorem at the one-cell table. -/
theorem c3_grid_shape_witness :
    1 ≤ tblC3.rows.length ∧
    ∃ d, buildData tblC3 = some d ∧
      d.name.length = tblC3.rows.length * tblC3.colLabels.length := by
  refine ⟨by decide, ?_⟩
  obtain ⟨d, hd, h1, -⟩ := (c3_grid_shape tblC3).1 (by decide) (by decide)
    (by decide) (by decide)
  exact ⟨d, hd, h1⟩

/-! ### Claim C5 -/

/-- A one-row, one-column table used by the C5 theorems. -/
def tblC5 : Table := ⟨["c"], [("A", [7])]⟩

/-- The completed build of `tblC5`. -/
def dC5 : HeatmapData := buildDataOf tblC5 [[7]]

/-- A single branch whose coordinates span 0..2, used by the C5
theorems. -/
def icC5 : List (List ℚ) := [[0, 2]]

/-- C5 counterexample: the claim says the maximum over the rescaled
position arrays equals `gridExtents.maxY = rowCount`.  The code scales
by `max(ys) / globalMax`, and `max(ys)` is the topmost cell *centre*
`rowCount - 0.5`, so on a one-row grid the rescaled maximum is `1/2`,
not `1`. -/
theorem c5_output_max_not_rowcount :
    buildData tblC5 = some dC5 ∧
    globalMax (scaleCoords icC5 (listMax dC5.ys / globalMax icC5)) ≠
      (tblC5.rows.length : ℚ) := by
  refine ⟨rfl, ?_⟩
  have h1 : listMax dC5.ys = 1/2 := by
    rw [buildData_ys tblC5 dC5 rfl]
    rw [ysListMax tblC5.rows.length tblC5.colLabels.length (by decide) (by decide)]
    norm_num [tblC5]
  rw [h1]
  norm_num [globalMax, scaleCoords, icC5, tblC5, listMax, max_def]

/-- C5 amended: `_createDendrogram` rescales every position value by
`max(data[ys]) / globalMax(icoord)` and every depth value by
`max(data[xs]) / globalMax(dcoord)` — the numerators being the extreme
cell centres `rowCount - 1/2` and `columnCount - 1/2`, not `rowCount`
and `columnCount` — and then negates the depths for drawing.  For any
non-degenerate coordinates the rescaled position maximum is exactly
`rowCount - 1/2` and the rescaled depth maximum (before negation) is
exactly `columnCount - 1/2`. -/
theorem c5_scale_extents (t : Table) (d : HeatmapData) (ic dc : List (List ℚ))
    (hd : buildData t = some d)
    (hr : 1 ≤ t.rows.length) (hc : 1 ≤ t.colLabels.length)
    (hicne : ic.flatten ≠ []) (hdcne : dc.flatten ≠ [])
    (hip : 0 < globalMax ic) (hdp : 0 < globalMax dc) :
    globalMax (scaleCoords ic (listMax d.ys / globalMax ic)) =
      (t.rows.length : ℚ) - 1/2 ∧
    globalMax (scaleCoords dc (listMax d.xs / globalMax dc)) =
      (t.colLabels.length : ℚ) - 1/2 := by
  have hr1 : (1 : ℚ) ≤ (t.rows.length : ℚ) := by exact_mod_cast hr
  have hc1 : (1 : ℚ) ≤ (t.colLabels.length : ℚ) := by exact_mod_cast hc
  have hys : listMax d.ys = (t.rows.length : ℚ) - 1/2 := by
    rw [buildData_ys t d hd]
    exact ysListMax t.rows.length t.colLabels.length hr hc
  have hxs : listMax d.xs = (t.colLabels.length : ℚ) - 1/2 := by
    rw [buildData_xs t d hd]
    exact xsListMax t.rows t.colLabels.length (List.length_pos.mp hr) hc
  constructor
  · have hfac : 0 ≤ listMax d.ys / globalMax ic := by
      rw [hys]
      apply div_nonneg _ (le_of_lt hip)
      linarith
    rw [globalMax_scaleCoords ic _ hfac hicne, mul_comm,
      div_mul_cancel₀ _ (ne_of_gt hip), hys]
  · have hfac : 0 ≤ listMax d.xs / globalMax dc := by
      rw [hxs]
      apply div_nonneg _ (le_of_lt hdp)
      linarith
    rw [globalMax_scaleCoords dc _ hfac hdcne, mul_comm,
      div_mul_cancel₀ _ (ne_of_gt hdp), hxs]

/-- C5 witness: the amended theorem at the one-cell grid with the
0..2 branch. -/
theorem c5_scale_extents_witness :
    (0 : ℚ) < globalMax icC5 ∧
    globalMax (scaleCoords icC5 (listMax dC5.ys / globalMax icC5)) =
      (tblC5.rows.length : ℚ) - 1/2 :=
  ⟨by norm_num [globalMax, icC5, listMax, max_def],
    (c5_scale_extents tblC5 dC5 icC5 icC5 rfl (by decide) (by decide)
      (by decide) (by decide)
      (by norm_num [globalMax, icC5, listMax, max_def])
      (by norm_num [globalMax, icC5, listMax, max_def])).1⟩

/-! ### Claim C6 -/

/-- The table behind the C6 state. -/
def tblC6 : Table := ⟨["c"], [("A", [7])]⟩

/-- The heatmap data of the one-cell table `tblC6`. -/
def dC6 : HeatmapData := buildDataOf tblC6 [[7]]

/-- A state whose heatmap has been built and whose stored depth arrays
are degenerate: every `dcoord` value is 0, so the global depth maximum
is 0. -/
def stC6 : DendroState :=
  { heatmap := .fig dC6 [], linkage := .mat tblC6,
    icoord := .arrs [[0, 1]], dcoord := .arrs [[0, 0]], data := some dC6 }

/-- C6 counterexample: the stored depth arrays of `stC6` are
degenerate (global maximum 0), yet `_createDendrogram` reports
nothing: there is no `DegenerateTreeError` anywhere in the code and
the call returns successfully. -/
theorem c6_degenerate_not_reported :
    stC6.dcoord = .arrs [[0, 0]] ∧ globalMax [[(0 : ℚ), 0]] = 0 ∧
    (createDendrogramState stC6).isOk = true := by
  refine ⟨rfl, ?_, rfl⟩
  norm_num [globalMax, listMax, max_def]

/-- C6 amended: `scale` performs no degeneracy check at all.  For any
state holding assigned coordinate arrays (from `addData`) and a built
heatmap (non-empty `ys`/`xs`), even when the global maximum position
or depth value is zero, the call silently succeeds — numpy turns the
division by zero into `inf` rather than an error (rational division by
zero is total in the model). -/
theorem c6_scale_never_fails (s : DendroState) (ic0 dc0 : List (List ℚ))
    (d hm : HeatmapData) (segs : List (List ℚ × List ℚ))
    (hic : s.icoord = .arrs ic0) (hdc : s.dcoord = .arrs dc0)
    (hd : s.data = some d) (hys : d.ys ≠ []) (hxs : d.xs ≠ [])
    (hfig : s.heatmap = .fig hm segs)
    (hdeg : globalMax ic0 = 0 ∨ globalMax dc0 = 0) :
    ∃ s2, createDendrogramState s = .ok s2 := by
  unfold createDendrogramState
  rw [hic, hdc, hd, hfig]
  simp only [if_neg hys, if_neg hxs]
  exact ⟨_, rfl⟩

/-- C6 witness: the amended theorem at the degenerate state `stC6`. -/
theorem c6_scale_never_fails_witness :
    globalMax [[(0 : ℚ), 0]] = 0 ∧
    ∃ s2, createDendrogramState stC6 = .ok s2 :=
  ⟨by norm_num [globalMax, listMax, max_def],
    c6_scale_never_fails stC6 [[0, 1]] [[0, 0]] dC6 dC6 [] rfl rfl rfl
      (by decide) (by decide) rfl
      (.inr (by norm_num [globalMax, listMax, max_def]))⟩

/-! ### Claim C9 -/

/-- A one-cell table used by the C9 theorems. -/
def tblC9 : Table := ⟨["c"], [("A", [4])]⟩

/-- A fresh state holding only the raw table `tblC9`. -/
def stC9 : DendroState := { initState with heatmap := .table tblC9 }

/-- C9 counterexample: building the heatmap succeeds but does *not*
return the state unchanged — the raw table stored in `heatmap` is
overwritten (by the figure), so the call is not a pure function
leaving the stored data intact. -/
theorem c9_build_mutates_state :
    (createHeatmapState stC9).isOk = true ∧
    createHeatmapState stC9 ≠ .ok stC9 := by
  constructor
  · rfl
  · intro h
    have h2 : createHeatmapState stC9 =
        .ok { stC9 with
              heatmap := .fig (buildDataOf tblC9 [[4]]) []
              data := some (buildDataOf tblC9 [[4]]) } := rfl
    rw [h2] at h
    have h3 := (Except.ok.injEq (ε := String) _ _).mp h
    exact absurd (congrArg DendroState.heatmap h3) (by decide)

/-- C9 amended: both operations mutate the instance.
`_createHeatmap` (on a table it can process) stores the cell dict in
`self.data` and overwrites `self.heatmap` with the figure, so a second
call to it on the same instance fails (the field no longer holds a
table); `_createDendrogram` (on a state with assigned coordinate
arrays and a built heatmap) overwrites the stored raw
`icoord`/`dcoord` arrays with their rescaled versions, so repeating it
does not act on the original data. -/
theorem c9_operations_mutate_state (s : DendroState) (t : Table)
    (d0 : HeatmapData) (ht : s.heatmap = .table t)
    (hb : buildData t = some d0) :
    (createHeatmapState s =
      .ok { s with heatmap := .fig d0 [], data := some d0 }) ∧
    (∀ s2, createHeatmapState s = .ok s2 →
      ∀ s3, createHeatmapState s2 ≠ .ok s3) ∧
    (∀ (s1 : DendroState) (ic0 dc0 : List (List ℚ)) (d hm : HeatmapData)
        (segs : List (List ℚ × List ℚ)),
      s1.icoord = .arrs ic0 → s1.dcoord = .arrs dc0 →
      s1.data = some d → d.ys ≠ [] → d.xs ≠ [] →
      s1.heatmap = .fig hm segs →
      ∃ s2, createDendrogramState s1 = .ok s2 ∧
        s2.icoord = .arrs (scaleCoords ic0 (listMax d.ys / globalMax ic0)) ∧
        s2.dcoord = .arrs (scaleCoords dc0 (listMax d.xs / globalMax dc0))) := by
  have hbuild : createHeatmapState s =
      .ok { s with heatmap := .fig d0 [], data := some d0 } := by
    unfold createHeatmapState
    rw [ht]
    simp only [hb]
  refine ⟨hbuild, ?_, ?_⟩
  · intro s2 h2 s3 h3
    rw [hbuild] at h2
    have hs2 := (Except.ok.injEq (ε := String) _ _).mp h2
    rw [← hs2] at h3
    exact absurd h3 (by unfold createHeatmapState; simp)
  · intro s1 ic0 dc0 d hm segs hic hdc hd hys hxs hfig
    unfold createDendrogramState
    rw [hic, hdc, hd, hfig]
    simp only [if_neg hys, if_neg hxs]
    exact ⟨_, rfl, rfl, rfl⟩

/-- C9 witness: the amended theorem at the fresh state `stC9`. -/
theorem c9_operations_mutate_state_witness :
    createHeatmapState stC9 =
      .ok { stC9 with
            heatmap := .fig (buildDataOf tblC9 [[4]]) []
            data := some (buildDataOf tblC9 [[4]]) } :=
  (c9_operations_mutate_state stC9 tblC9 (buildDataOf tblC9 [[4]]) rfl rfl).1

/-! ### Claim C1 -/

/-- The spec's worked-example table, used by the C1 witness. -/
def tblC1 : Table := ⟨["c1", "c2"], [("A", [0, 10]), ("B", [5, 20])]⟩

/-- A table with two *different* rows sharing the label `A`. -/
def tblC1dup : Table := ⟨["c"], [("A", [1]), ("A", [2])]⟩

/-- C1 counterexample: the claim quantifies over *every* table.  On
the duplicate-label table `tblC1dup`, `[1, 0]` is a valid leaf-order
permutation and the reorder succeeds, but the subsequent build yields
no cell grid at all: `df.loc["A"].tolist()` (line 71) raises
`AttributeError`, so no grid row carries the claimed values. -/
theorem c1_duplicate_labels_crash :
    ilocTable tblC1dup [1, 0] =
      .ok ⟨["c"], [("A", [2]), ("A", [1])]⟩ ∧
    buildData ⟨["c"], [("A", [2]), ("A", [1])]⟩ = none := ⟨rfl, rfl⟩

/-- C1 amended: on a table whose row labels are pairwise distinct,
reordering by a valid leaf-order permutation (line 47) and then
building the heatmap places, at the flat cell index
`i * columnCount + j` of grid row `i`, the value of original row
`leafOrder[i]` at column `j`, together with that same original row's
label and the vertical centre `i + 1/2`: a row's label and its values
travel together through the reorder.  (On a duplicated row label the
build instead crashes, see the counterexample.) -/
theorem c1_reorder_build_alignment (t : Table) (ord : List ℕ)
    (hrect : ∀ r ∈ t.rows, r.2.length = t.colLabels.length)
    (hlab : (t.rows.map Prod.fst).Nodup)
    (hlen : ord.length = t.rows.length) (hnd : ord.Nodup)
    (hin : ∀ i ∈ ord, i < t.rows.length) :
    ∃ t2 d, ilocTable t ord = .ok t2 ∧ buildData t2 = some d ∧
      ∀ (i j ri : ℕ), ord[i]? = some ri → j < t.colLabels.length →
        d.value[i * t.colLabels.length + j]? =
          (t.rows.getD ri ("", [])).2[j]? ∧
        d.name[i * t.colLabels.length + j]? =
          some (t.rows.getD ri ("", [])).1 ∧
        d.ys[i * t.colLabels.length + j]? = some ((i : ℚ) + 1/2) := by
  have hcond : (ord.all (fun i => i < t.rows.length)) = true := by simpa using hin
  have hlab2 := sel_labels_nodup t ord hlab hnd hin
  refine ⟨⟨t.colLabels, ord.map (fun i => t.rows.getD i ("", []))⟩,
    buildDataOf ⟨t.colLabels, ord.map (fun i => t.rows.getD i ("", []))⟩
      ((ord.map (fun i => t.rows.getD i ("", []))).map Prod.snd),
    by rw [ilocTable, if_pos hcond],
    buildData_nodup _ hlab2, ?_⟩
  intro i j ri hi hj
  have hri : ri < t.rows.length := hin ri (List.getElem?_mem hi)
  have hsel : t.rows.getD ri ("", []) = t.rows[ri] := by
    rw [List.getD_eq_getElem?_getD, List.getElem?_eq_getElem hri]; rfl
  have ht2i : (⟨t.colLabels,
      ord.map (fun i => t.rows.getD i ("", []))⟩ : Table).rows[i]? =
      some (t.rows.getD ri ("", [])) := by
    show (ord.map (fun i => t.rows.getD i ("", [])))[i]? = _
    rw [List.getElem?_map, hi]
    rfl
  have hrect2 : ∀ r ∈ (⟨t.colLabels,
      ord.map (fun i => t.rows.getD i ("", []))⟩ : Table).rows,
      r.2.length = t.colLabels.length := by
    intro r hr
    obtain ⟨a, ha, rfl⟩ := List.mem_map.mp hr
    apply hrect
    have haa : a < t.rows.length := hin a ha
    have hga : t.rows.getD a ("", []) = t.rows[a] := by
      rw [List.getD_eq_getElem?_getD, List.getElem?_eq_getElem haa]; rfl
    rw [hga]
    exact List.getElem_mem haa
  exact buildDataOf_indexing
    ⟨t.colLabels, ord.map (fun i => t.rows.getD i ("", []))⟩ hrect2 i j
    (t.rows.getD ri ("", [])) ht2i hj

/-- C1 witness: the amended theorem at the spec's worked example —
leafOrder `[1, 0]` puts row B first, and grid cell 0 then carries B's
value 5 together with B's label. -/
theorem c1_reorder_build_alignment_witness :
    ilocTable tblC1 [1, 0] =
      .ok ⟨["c1", "c2"], [("B", [5, 20]), ("A", [0, 10])]⟩ ∧
    buildData ⟨["c1", "c2"], [("B", [5, 20]), ("A", [0, 10])]⟩ =
      some (buildDataOf ⟨["c1", "c2"], [("B", [5, 20]), ("A", [0, 10])]⟩
        [[5, 20], [0, 10]]) ∧
    (buildDataOf (⟨["c1", "c2"], [("B", [5, 20]), ("A", [0, 10])]⟩ : Table)
      [[5, 20], [0, 10]]).value[0]? = some 5 ∧
    (buildDataOf (⟨["c1", "c2"], [("B", [5, 20]), ("A", [0, 10])]⟩ : Table)
      [[5, 20], [0, 10]]).name[0]? = some "B" := by
  obtain ⟨t2, d, h1, h2, h3⟩ := c1_reorder_build_alignment tblC1 [1, 0]
    (by decide) (by decide) (by decide) (by decide) (by decide)
  have ht2 : t2 = ⟨["c1", "c2"], [("B", [5, 20]), ("A", [0, 10])]⟩ := by
    have hx : ilocTable tblC1 [1, 0] =
        .ok (⟨["c1", "c2"], [("B", [5, 20]), ("A", [0, 10])]⟩ : Table) := rfl
    rw [h1] at hx
    exact (Except.ok.injEq (ε := String) _ _).mp hx
  subst ht2
  have hd : d = buildDataOf ⟨["c1", "c2"], [("B", [5, 20]), ("A", [0, 10])]⟩
      [[5, 20], [0, 10]] := by
    have hx : buildData
        (⟨["c1", "c2"], [("B", [5, 20]), ("A", [0, 10])]⟩ : Table) =
        some (buildDataOf ⟨["c1", "c2"], [("B", [5, 20]), ("A", [0, 10])]⟩
          [[5, 20], [0, 10]]) := rfl
    rw [h2] at hx
    exact Option.some_inj.mp hx
  subst hd
  obtain ⟨hv, hm, -⟩ := h3 0 0 1 (by decide) (by decide)
  exact ⟨h1, h2, hv, hm⟩
